import Mathlib

/-!
Verification of the Snapshot + Overlay core of the hive repository.

The development shallowly embeds the Go sources:
- `internal/snapshot/snapshot.go` (the snapshot Fetcher),
- the `hivesim` SnapshotManager (package hivesim),
- `internal/overlay/overlay.go` together with the Linux platform file
  (mountOverlay / cleanupMount / cleanupDirs / isMounted / killProcesses).

The host filesystem is modelled as an association list from path strings to
nodes.  Only the paths the functions themselves read or write are tracked;
`filepath.Join` is modelled as concatenation with a single slash (the Go code
joins clean, slash-free components).  Every operating-system or network call
whose error the Go code inspects is driven by an explicit environment record;
calls whose errors the Go code discards (such as `os.Remove` of the archive)
are modelled as always succeeding.
-/

deriving instance DecidableEq for Except

namespace Hive

/-! Filesystem model -/

/-- Node of the modelled filesystem: a regular file with a byte size, or a
directory.  File contents other than size are irrelevant to the claims. -/
inductive FsNode where
  | file (size : Nat)
  | dir
deriving DecidableEq, Repr

/-- Filesystem: association list from absolute path to node. -/
abbrev FS := List (String × FsNode)

/-- Lookup of a path (models `os.Stat`: `some` means the path exists). -/
def fsGet (fs : FS) (p : String) : Option FsNode :=
  (fs.find? (fun e => e.1 == p)).map (fun e => e.2)

/-- Write or overwrite a path (models `os.Create` / `os.WriteFile`). -/
def fsSet (fs : FS) (p : String) (n : FsNode) : FS :=
  (p, n) :: fs.filter (fun e => e.1 != p)

/-- Remove a single path (models `os.Remove`). -/
def fsRemove (fs : FS) (p : String) : FS :=
  fs.filter (fun e => e.1 != p)

/-- Boolean string-prefix test, used to delimit a directory subtree. -/
def strPre (p s : String) : Bool :=
  p.data.isPrefixOf s.data

/-- Remove a path and everything below it (models `os.RemoveAll`). -/
def fsRemoveAll (fs : FS) (p : String) : FS :=
  fs.filter (fun e => !(e.1 == p || strPre (p ++ "/") e.1))

/-- Ensure a directory exists at a path (models a successful `os.MkdirAll`;
failures of `MkdirAll` are injected separately through the environment). -/
def fsMkdir (fs : FS) (p : String) : FS :=
  match fsGet fs p with
  | some .dir => fs
  | _ => fsSet fs p .dir

/-- Lowercasing of a string (models `strings.ToLower`; the identifiers in
play are ASCII). -/
def lowerStr (s : String) : String :=
  String.mk (s.data.map Char.toLower)

/-- Trimming of surrounding whitespace (models `strings.TrimSpace`). -/
def trimStr (s : String) : String :=
  String.mk
    (((s.data.dropWhile Char.isWhitespace).reverse.dropWhile
        Char.isWhitespace).reverse)

namespace Snapshot

/-! Embedding of internal/snapshot/snapshot.go -/

/-- Outcome of the `io.Copy` of one HTTP response body: bytes written and
whether the copy finished without a transport error. -/
inductive CopyOutcome where
  | ok (written : Nat)
  | err (written : Nat)
deriving DecidableEq, Repr

/-- One HTTP answer of the snapshot server to an archive GET. -/
inductive DlResp where
  | transportErr
  | resp (status : Nat) (contentLength : Nat) (copy : CopyOutcome)
deriving DecidableEq, Repr

/-- Errors of `downloadFile`.  `fuelOut` marks exhaustion of the fuel bound
put on the (unbounded, in Go) recursion of the 416 branch. -/
inductive DlErr where
  | transport
  | httpStatus (code : Nat)
  | openFailed
  | copyFailed
  | fuelOut
deriving DecidableEq, Repr

/-- Environment of one `EnsureSnapshot` run: answers of the network and the
success of each operating-system call whose error the Go code inspects. -/
structure SnapEnv where
  /-- Answer of GET `base/network/client/latest`: `none` is a transport
  error, otherwise status code and body. -/
  latest : Option (Nat × String)
  /-- Answer of the n-th GET of the archive URL within one `downloadFile`
  call chain (the 416 branch re-requests with a fresh attempt index). -/
  dl : Nat → DlResp
  /-- Success of `os.MkdirAll(destDir)`. -/
  mkdirEntryOk : Bool
  /-- Success of `os.MkdirAll(extractedDir)`. -/
  mkdirDataOk : Bool
  /-- Result of `exec.LookPath("zstd")`. -/
  zstdAvailable : Bool
  /-- Success of the `zstd -d -c | tar -xf` pipeline. -/
  extractOk : Bool
  /-- Success of `os.WriteFile(markerPath, ...)`; on failure the Go code only
  logs a warning. -/
  markerWriteOk : Bool

/-- Result of `downloadFile`: outcome, filesystem, HTTP requests made. -/
structure DlOut where
  res : Except DlErr Unit
  fs : FS
  calls : Nat
deriving DecidableEq, Repr

/-- Model of `Fetcher.downloadFile`.  Mirrors the Go switch on the response
status: 200 truncates and rewrites the file, 206 appends to an existing
file, 416 removes the local file and calls itself again (in Go this
recursion has no bound; `fuel` makes the model total), any other status is
an error.  `attempt` indexes requests of the current call chain. -/
def downloadFile (env : SnapEnv) (destPath : String) :
    Nat → Nat → FS → Nat → DlOut
  | fuel, attempt, fs, calls =>
    let existingSize : Nat :=
      match fsGet fs destPath with
      | some (.file sz) => sz
      | _ => 0
    -- a Range header is sent iff existingSize > 0; the environment's answer
    -- is indexed by the attempt number
    match env.dl attempt with
    | .transportErr => ⟨.error .transport, fs, calls + 1⟩
    | .resp status _contentLength copy =>
      if status == 200 then
        -- server sent the full file: os.Create truncates, then io.Copy
        match copy with
        | .ok w => ⟨.ok (), fsSet fs destPath (.file w), calls + 1⟩
        | .err w => ⟨.error .copyFailed, fsSet fs destPath (.file w), calls + 1⟩
      else if status == 206 then
        -- append to the existing file via os.OpenFile(O_APPEND|O_WRONLY)
        match fsGet fs destPath with
        | none => ⟨.error .openFailed, fs, calls + 1⟩
        | some _ =>
          match copy with
          | .ok w =>
            ⟨.ok (), fsSet fs destPath (.file (existingSize + w)), calls + 1⟩
          | .err w =>
            ⟨.error .copyFailed, fsSet fs destPath (.file (existingSize + w)),
              calls + 1⟩
      else if status == 416 then
        -- os.Remove(destPath) then an unconditional recursive retry
        match fuel with
        | 0 => ⟨.error .fuelOut, fsRemove fs destPath, calls + 1⟩
        | fuel' + 1 =>
          downloadFile env destPath fuel' (attempt + 1)
            (fsRemove fs destPath) (calls + 1)
      else
        ⟨.error (.httpStatus status), fs, calls + 1⟩

/-- Errors surfaced by `EnsureSnapshot` / `downloadSnapshot`. -/
inductive SnapErr where
  | resolveTransport
  | resolveStatus (code : Nat)
  | resolveEmpty
  | mkdirEntryFailed
  | downloadFailed (e : DlErr)
  | mkdirDataFailed
  | zstdMissing
  | extractRunFailed
deriving DecidableEq, Repr

/-- Model of `Fetcher.extractTarZst`: fails when `zstd` is missing or when
the external pipeline fails; its writes into `data/` are abstract. -/
def extractTarZst (env : SnapEnv) : Except SnapErr Unit :=
  if !env.zstdAvailable then .error .zstdMissing
  else if env.extractOk then .ok () else .error .extractRunFailed

/-- Archive path of an entry directory: `filepath.Join(destDir, SnapshotFileName)`. -/
def archiveOf (d : String) : String := d ++ "/snapshot.tar.zst"

/-- Extraction directory of an entry directory. -/
def dataOf (d : String) : String := d ++ "/data"

/-- Completion-marker path of an entry directory. -/
def markerOf (d : String) : String := d ++ "/.complete"

/-- Result of `downloadSnapshot` / `EnsureSnapshot`. -/
structure SnapOut (α : Type) where
  res : Except SnapErr α
  fs : FS
  calls : Nat
deriving DecidableEq, Repr

/-- Model of `Fetcher.downloadSnapshot`: create the entry directory, download
the archive (partial file preserved on failure), create `data/`, extract
(removing `data/` but keeping the archive on failure), delete the archive
(error discarded in Go), write the `.complete` marker (failure only logged). -/
def downloadSnapshot (env : SnapEnv) (fuel : Nat) (destDir : String)
    (fs : FS) (calls : Nat) : SnapOut Unit :=
  if !env.mkdirEntryOk then ⟨.error .mkdirEntryFailed, fs, calls⟩
  else
    match downloadFile env (archiveOf destDir) fuel 0 (fsMkdir fs destDir) calls with
    | ⟨.error e, fs1, calls1⟩ => ⟨.error (.downloadFailed e), fs1, calls1⟩
    | ⟨.ok (), fs1, calls1⟩ =>
      if !env.mkdirDataOk then ⟨.error .mkdirDataFailed, fs1, calls1⟩
      else
        match extractTarZst env with
        | .error e =>
          ⟨.error e,
            fsRemoveAll (fsMkdir fs1 (dataOf destDir)) (dataOf destDir), calls1⟩
        | .ok () =>
          if env.markerWriteOk then
            ⟨.ok (),
              fsSet (fsRemove (fsMkdir fs1 (dataOf destDir)) (archiveOf destDir))
                (markerOf destDir) (.file 25), calls1⟩
          else
            ⟨.ok (),
              fsRemove (fsMkdir fs1 (dataOf destDir)) (archiveOf destDir), calls1⟩

/-- Client-name mapping table of `mapClientName`. -/
def clientNameMapping : List (String × String) :=
  [ ("go-ethereum", "geth"), ("nethermind", "nethermind"),
    ("besu", "besu"), ("reth", "reth"), ("erigon", "erigon") ]

/-- Strip a nametag suffix: drop everything from the first underscore on,
but only when the underscore is not the first character
(`strings.Index(hiveName, "_") > 0`).  Indices are character positions;
the Go byte positions coincide on the ASCII names in use. -/
def stripNametag (s : String) : String :=
  match s.toList.findIdx? (fun c => c = '_') with
  | some i => if 0 < i then String.mk (s.toList.take i) else s
  | none => s

/-- Model of `mapClientName`. -/
def mapClientName (hiveName : String) : String :=
  let baseName := stripNametag hiveName
  match clientNameMapping.find? (fun e => e.1 == lowerStr baseName) with
  | some e => e.2
  | none => baseName

/-- Model of `Fetcher.resolveLatestBlock`: one GET of the latest endpoint,
non-200 status is an error, the first 64 bytes are trimmed, an empty result
is an error. -/
def resolveLatestBlock (env : SnapEnv) : Except SnapErr String :=
  match env.latest with
  | none => .error .resolveTransport
  | some (status, body) =>
    if status != 200 then .error (.resolveStatus status)
    else
      let blockNumber := trimStr (body.take 64)
      if blockNumber == "" then .error .resolveEmpty
      else .ok blockNumber

/-- Fetcher configuration (the fields of `snapshot.Config` the model uses;
`BaseURL` only selects the server, which the environment plays). -/
structure SnapConfig where
  network : String
  client : String
  blockNumber : String
  cacheDir : String
deriving DecidableEq, Repr

/-- Entry directory computed by `EnsureSnapshot` for an already-concrete
block number. -/
def entryDir (cfg : SnapConfig) (blockNumber : String) : String :=
  cfg.cacheDir ++ "/" ++ lowerStr cfg.network ++ "/"
    ++ lowerStr (mapClientName cfg.client) ++ "/" ++ blockNumber

/-- Model of `Fetcher.EnsureSnapshot`: normalize, resolve `latest` when
asked for, fast path on the `.complete` marker, otherwise download and
extract.  `calls` counts HTTP requests performed. -/
def ensureSnapshot (env : SnapEnv) (fuel : Nat) (cfg : SnapConfig)
    (fs : FS) : SnapOut String :=
  let blockNumber0 := if cfg.blockNumber == "" then "latest" else cfg.blockNumber
  match (if blockNumber0 == "latest" then (resolveLatestBlock env, 1)
         else (.ok blockNumber0, 0) : Except SnapErr String × Nat) with
  | (.error e, n) => ⟨.error e, fs, n⟩
  | (.ok blockNumber, n) =>
    let snapshotDir := entryDir cfg blockNumber
    match fsGet fs (markerOf snapshotDir) with
    | some _ => ⟨.ok (dataOf snapshotDir), fs, n⟩
    | none =>
      match downloadSnapshot env fuel snapshotDir fs n with
      | ⟨.error e, fs1, calls1⟩ => ⟨.error e, fs1, calls1⟩
      | ⟨.ok (), fs1, calls1⟩ => ⟨.ok (dataOf snapshotDir), fs1, calls1⟩

end Snapshot

namespace SM

/-! Embedding of the hivesim SnapshotManager (package hivesim): the second
downloader of the repository, cited by the spec's partial-archive claim.
Its `downloadFile` has no resume support, and its `downloadSnapshot`
removes the whole entry directory on download or extraction failure. -/

/-- Environment of one `SnapshotManager.downloadSnapshot` run. -/
structure SMEnv where
  /-- Answer of the single archive GET (no Range header is ever sent). -/
  dl : Snapshot.DlResp
  /-- Success of `os.MkdirAll(destDir)`. -/
  mkdirEntryOk : Bool
  /-- Success of `os.MkdirAll(extractedDir)`. -/
  mkdirDataOk : Bool
  /-- Result of `exec.LookPath("zstd")` inside `extractWithZstdCommand`. -/
  zstdAvailable : Bool
  /-- Success of the `zstd -d -c | tar -xf` pipeline. -/
  extractOk : Bool
  /-- Whether `fetchMetadata` succeeds (its failure is only logged). -/
  metaOk : Bool
  /-- Success of `saveMetadata` (its failure is only logged). -/
  saveMetaOk : Bool

/-- Errors of `SnapshotManager.downloadSnapshot`. -/
inductive SMErr where
  | mkdirEntryFailed
  | downloadFailed (e : Snapshot.DlErr)
  | mkdirDataFailed
  | extractFailed
deriving DecidableEq, Repr

/-- Model of `SnapshotManager.downloadFile`: one GET, any non-200 status is
an error, `os.Create` truncates the destination, then one body copy. -/
def downloadFile (env : SMEnv) (destPath : String) (fs : FS) :
    Except Snapshot.DlErr Unit × FS :=
  match env.dl with
  | .transportErr => (.error .transport, fs)
  | .resp status _contentLength copy =>
    if status != 200 then (.error (.httpStatus status), fs)
    else
      match copy with
      | .ok w => (.ok (), fsSet fs destPath (.file w))
      | .err w => (.error .copyFailed, fsSet fs destPath (.file w))

/-- Model of `SnapshotManager.extractTarZst`: the zstd/tar pipeline when
available, otherwise the pure-Go fallback which always fails. -/
def extractTarZst (env : SMEnv) : Except SMErr Unit :=
  if env.zstdAvailable && env.extractOk then .ok () else .error .extractFailed

/-- Model of `SnapshotManager.downloadSnapshot`.  Note the cleanup policy:
on download failure, on `data/` creation failure and on extraction failure
the Go code runs `os.RemoveAll(destDir)`, deleting the whole entry
directory including any partial archive. -/
def downloadSnapshot (env : SMEnv) (destDir : String) (fs : FS) :
    Except SMErr Unit × FS :=
  if !env.mkdirEntryOk then (.error .mkdirEntryFailed, fs)
  else
    let fs0 := fsMkdir fs destDir
    match downloadFile env (Snapshot.archiveOf destDir) fs0 with
    | (.error e, fs1) => (.error (.downloadFailed e), fsRemoveAll fs1 destDir)
    | (.ok (), fs1) =>
      if !env.mkdirDataOk then (.error .mkdirDataFailed, fsRemoveAll fs1 destDir)
      else
        let fs2 := fsMkdir fs1 (Snapshot.dataOf destDir)
        match extractTarZst env with
        | .error e => (.error e, fsRemoveAll fs2 destDir)
        | .ok () =>
          -- metadata fetch and save: failures are only logged
          let fs3 :=
            if env.saveMetaOk then
              fsSet fs2 (destDir ++ "/metadata.json") (.file 1)
            else fs2
          (.ok (), fsRemove fs3 (Snapshot.archiveOf destDir))

end SM

namespace Overlay

/-! Embedding of internal/overlay/overlay.go and the Linux platform file. -/

/-- Record of one active overlay mount (`overlay.Mount`). -/
structure Mount where
  id : String
  containerID : String
  lowerDir : String
  upperDir : String
  workDir : String
  mergedDir : String
  containerPath : String
  createdAt : Nat
deriving DecidableEq, Repr

/-- Contents of the on-disk state file `state.json`. -/
inductive StateFileContent where
  | absent
  | good (entries : List (String × Mount))
  | corrupt
deriving DecidableEq, Repr

/-- Manager state: the in-memory registry keyed by container id, the set of
overlay-id directory trees existing under the base directory, and the state
file.  Operations hold the registry lock for their whole body, so each is
modelled as one atomic state transformer. -/
structure OvState where
  overlays : List (String × Mount)
  dirs : List String
  stateFile : StateFileContent
deriving DecidableEq, Repr

/-- Outcome of `os.Stat(config.SnapshotPath)`. -/
inductive SnapStat where
  | notExist
  | statErr
  | file
  | dir
deriving DecidableEq, Repr

/-- How `mountOverlay` fails, when it fails. -/
inductive MountFailure where
  | permission
  | other
deriving DecidableEq, Repr

/-- Environment of overlay-manager operations: clock, stat answers and the
success of each syscall whose error the Go code inspects.  Mount-table
operations are keyed by the merged directory, `os.RemoveAll` by overlay id. -/
structure OvEnv where
  baseDir : String
  nowNano : Nat
  snapStat : String → SnapStat
  /-- Index in the upper/work/merged loop at which `os.MkdirAll` fails,
  `none` when all three succeed. -/
  mkdirFailAt : Option Nat
  /-- Failure of the overlay mount syscall, `none` on success. -/
  mountErr : Option MountFailure
  /-- Success of the `state.json` write inside `persistState`. -/
  persistOk : Bool
  /-- Success of `os.ReadFile(statePath)` when the file exists. -/
  readStateOk : Bool
  isMounted : String → Bool
  unmountOk : String → Bool
  lazyUnmountOk : String → Bool
  forceUnmountOk : String → Bool
  removeAllOk : String → Bool

/-- Registry lookup (Go map indexing). -/
def regFind (reg : List (String × Mount)) (cid : String) : Option Mount :=
  (reg.find? (fun e => e.1 == cid)).map (fun e => e.2)

/-- Registry deletion (Go `delete` removes the key entirely). -/
def regErase (reg : List (String × Mount)) (cid : String) :
    List (String × Mount) :=
  reg.filter (fun e => e.1 != cid)

/-- Removal of one overlay-id tree from the set of existing trees. -/
def dirsErase (dirs : List String) (id : String) : List String :=
  dirs.filter (fun d => d != id)

/-- Model of `persistState`: empty registry removes `state.json`, otherwise
the whole registry is rewritten; a failed write leaves the old file and is
only logged by the callers. -/
def persistState (env : OvEnv) (st : OvState) : OvState :=
  if st.overlays.isEmpty then { st with stateFile := .absent }
  else if env.persistOk then { st with stateFile := .good st.overlays }
  else st

/-- Overlay request (`overlay.Config`). -/
structure OvConfig where
  snapshotPath : String
  containerMountPath : String
deriving DecidableEq, Repr

/-- Errors of `CreateOverlay`. -/
inductive CreateErr where
  | overlayExists
  | snapshotNotFound
  | statFailed
  | snapshotNotDirectory
  | mkdirFailed
  | permissionDenied
  | mountFailed
deriving DecidableEq, Repr

/-- Result of `CreateOverlay`; `panicked` stands for the Go runtime panic of
the out-of-range slice `containerID[:12]`. -/
inductive CreateRes where
  | ok (m : Mount)
  | err (e : CreateErr)
  | panicked
deriving DecidableEq, Repr

/-- Overlay id generated by `CreateOverlay` for a container id of length at
least 12 (characters stand in for the Go bytes; container ids are ASCII). -/
def overlayIdFor (env : OvEnv) (containerID : String) : String :=
  containerID.take 12 ++ "_" ++ toString env.nowNano

/-- Model of `CreateOverlay`.  Checks run in source order: duplicate
registration, snapshot stat, then the slice `containerID[:12]` (which
panics on a shorter id), directory creation with `os.RemoveAll` cleanup on
failure, the mount with the same cleanup, then registration and state
persistence (a persistence failure is only logged). -/
def createOverlay (env : OvEnv) (st : OvState) (containerID : String)
    (cfg : OvConfig) : CreateRes × OvState :=
  if (regFind st.overlays containerID).isSome then (.err .overlayExists, st)
  else
    match env.snapStat cfg.snapshotPath with
    | .notExist => (.err .snapshotNotFound, st)
    | .statErr => (.err .statFailed, st)
    | .file => (.err .snapshotNotDirectory, st)
    | .dir =>
      if containerID.length < 12 then (.panicked, st)
      else
        let overlayID := overlayIdFor env containerID
        let overlayDir := env.baseDir ++ "/" ++ overlayID
        match env.mkdirFailAt with
        | some _ =>
          -- os.RemoveAll(overlayDir) after a failed MkdirAll in the loop
          (.err .mkdirFailed, { st with dirs := dirsErase st.dirs overlayID })
        | none =>
          let st1 := { st with dirs := overlayID :: st.dirs }
          let mount : Mount :=
            { id := overlayID
              containerID := containerID
              lowerDir := cfg.snapshotPath
              upperDir := overlayDir ++ "/upper"
              workDir := overlayDir ++ "/work"
              mergedDir := overlayDir ++ "/merged"
              containerPath := cfg.containerMountPath
              createdAt := env.nowNano }
          match env.mountErr with
          | some .permission =>
            (.err .permissionDenied,
              { st1 with dirs := dirsErase st1.dirs overlayID })
          | some .other =>
            (.err .mountFailed,
              { st1 with dirs := dirsErase st1.dirs overlayID })
          | none =>
            let st2 :=
              { st1 with overlays := (containerID, mount) :: st1.overlays }
            (.ok mount, persistState env st2)

/-- Errors of `cleanupMount`. -/
inductive CleanupErr where
  | unmountFailed
  | removeFailed
deriving DecidableEq, Repr

/-- Model of `cleanupDirs`: `os.RemoveAll` of the overlay-id tree. -/
def cleanupDirs (env : OvEnv) (mount : Mount) (dirs : List String) :
    Except CleanupErr (List String) :=
  if env.removeAllOk mount.id then .ok (dirsErase dirs mount.id)
  else .error .removeFailed

/-- Model of `cleanupMount` (Linux): skip unmounting when not a mount
point, then the escalation ladder normal / lazy / kill-processes (whose
failure is suppressed and which has no modelled effect) / force-and-lazy;
only when every rung fails is `ErrUnmountFailed` returned.  Each success
ends in `cleanupDirs`. -/
def cleanupMount (env : OvEnv) (mount : Mount) (dirs : List String) :
    Except CleanupErr (List String) :=
  if !env.isMounted mount.mergedDir then cleanupDirs env mount dirs
  else if env.unmountOk mount.mergedDir then cleanupDirs env mount dirs
  else if env.lazyUnmountOk mount.mergedDir then cleanupDirs env mount dirs
  else if env.forceUnmountOk mount.mergedDir then cleanupDirs env mount dirs
  else .error .unmountFailed

/-- Model of `CleanupOverlay`: absent container id is a successful no-op; a
`cleanupMount` failure is returned with the registry entry retained; on
success the entry is deregistered and the state persisted. -/
def cleanupOverlay (env : OvEnv) (st : OvState) (containerID : String) :
    Except CleanupErr Unit × OvState :=
  match regFind st.overlays containerID with
  | none => (.ok (), st)
  | some mount =>
    match cleanupMount env mount st.dirs with
    | .error e => (.error e, st)
    | .ok dirs' =>
      let st1 :=
        { st with overlays := regErase st.overlays containerID, dirs := dirs' }
      (.ok (), persistState env st1)

/-- Model of `CleanupAll`: attempt cleanup of every registered mount,
remember the last error, then clear the registry and remove the state file
unconditionally. -/
def cleanupAll (env : OvEnv) (st : OvState) : Option CleanupErr × OvState :=
  let acc := st.overlays.foldl
    (fun (acc : Option CleanupErr × List String) e =>
      match cleanupMount env e.2 acc.2 with
      | .error err => (some err, acc.2)
      | .ok d' => (acc.1, d'))
    (none, st.dirs)
  (acc.1, { overlays := [], dirs := acc.2, stateFile := .absent })

/-- Error of `RecoverOrphanedMounts` (a failed `os.ReadFile` other than
not-exists). -/
inductive RecoverErr where
  | readFailed
deriving DecidableEq, Repr

/-- Model of `RecoverOrphanedMounts`: a missing state file is a no-op, a
malformed one is removed with only a log line, otherwise cleanup of each
recorded mount is attempted (failures logged and skipped) and the state
file removed.  The in-memory registry is not touched. -/
def recoverOrphanedMounts (env : OvEnv) (st : OvState) :
    Except RecoverErr Unit × OvState :=
  match st.stateFile with
  | .absent => (.ok (), st)
  | .corrupt =>
    if !env.readStateOk then (.error .readFailed, st)
    else (.ok (), { st with stateFile := .absent })
  | .good entries =>
    if !env.readStateOk then (.error .readFailed, st)
    else
      let dirs' := entries.foldl
        (fun d e =>
          match cleanupMount env e.2 d with
          | .ok d' => d'
          | .error _ => d)
        st.dirs
      (.ok (), { st with dirs := dirs', stateFile := .absent })

/-- Model of `GetOverlay` (shared-lock registry lookup). -/
def getOverlay (st : OvState) (containerID : String) : Option Mount :=
  regFind st.overlays containerID

/-- Spec invariant I-5 as a state predicate: the state file mirrors the
registry, and an empty registry means no state file. -/
def stateConsistent (st : OvState) : Prop :=
  (st.overlays = [] → st.stateFile = .absent) ∧
    (st.overlays ≠ [] → st.stateFile = .good st.overlays)

instance (st : OvState) : Decidable (stateConsistent st) := by
  unfold stateConsistent; infer_instance

end Overlay

namespace Snapshot

/-- Spec invariant I-1 as a predicate on the cache: a completion marker next
to an entry directory implies the extracted data directory. -/
def wfCache (fs : FS) : Prop :=
  ∀ d : String, (fsGet fs (markerOf d)).isSome = true →
    fsGet fs (dataOf d) = some FsNode.dir

end Snapshot

namespace Overlay

/-- Condition under which `cleanupMount` succeeds for a mount: some rung of
the unmount ladder works (or the path is not mounted at all) and the
directory removal works. -/
def canCleanup (env : OvEnv) (m : Mount) : Bool :=
  (!env.isMounted m.mergedDir || env.unmountOk m.mergedDir
      || env.lazyUnmountOk m.mergedDir || env.forceUnmountOk m.mergedDir)
    && env.removeAllOk m.id

end Overlay

/-! Concrete environments, configurations and states used below to evaluate
the models on explicit inputs. -/

namespace Snapshot

/-- Environment in which every call succeeds: the latest block resolves to
the string "100" and the archive downloads in one 200 response. -/
def envAllOk : SnapEnv :=
  { latest := some (200, "100")
    dl := fun _ => .resp 200 10 (.ok 10)
    mkdirEntryOk := true
    mkdirDataOk := true
    zstdAvailable := true
    extractOk := true
    markerWriteOk := true }

/-- Environment in which everything succeeds except the final write of the
completion marker. -/
def envMarkerFails : SnapEnv := { envAllOk with markerWriteOk := false }

/-- Environment in which the first two archive requests answer 416 and the
third answers 200. -/
def env416Twice : SnapEnv :=
  { envAllOk with
      dl := fun n => if n < 2 then .resp 416 0 (.ok 0)
                     else .resp 200 7 (.ok 7) }

/-- Environment in which every archive request answers 416. -/
def env416Always : SnapEnv :=
  { envAllOk with dl := fun _ => .resp 416 0 (.ok 0) }

/-- Environment of a download interrupted after five written bytes. -/
def envCopyInterrupted : SnapEnv :=
  { envAllOk with dl := fun _ => .resp 200 9 (.err 5) }

/-- Environment in which the download succeeds but the extraction pipeline
fails. -/
def envExtractFails : SnapEnv := { envAllOk with extractOk := false }

/-- Configuration naming the concrete block "100". -/
def cfgBlock100 : SnapConfig :=
  { network := "mainnet", client := "geth", blockNumber := "100",
    cacheDir := "/c" }

/-- Configuration asking for the latest block. -/
def cfgLatest : SnapConfig :=
  { network := "mainnet", client := "geth", blockNumber := "latest",
    cacheDir := "/c" }

/-- A cache holding a completed entry for mainnet/geth/100. -/
def fsCached100 : FS :=
  [ (("/c/mainnet/geth/100/.complete"), .file 0),
    (("/c/mainnet/geth/100/data"), .dir) ]

end Snapshot

namespace SM

/-- Environment in which the single snapshot-manager GET fails on the wire
and everything else would succeed. -/
def smEnvNetFail : SMEnv :=
  { dl := .transportErr, mkdirEntryOk := true, mkdirDataOk := true,
    zstdAvailable := true, extractOk := true, metaOk := true,
    saveMetaOk := true }

end SM

namespace Overlay

/-- Overlay environment in which every syscall succeeds and nothing is
currently mounted. -/
def envOvAllOk : OvEnv :=
  { baseDir := "/b"
    nowNano := 7
    snapStat := fun _ => .dir
    mkdirFailAt := none
    mountErr := none
    persistOk := true
    readStateOk := true
    isMounted := fun _ => false
    unmountOk := fun _ => true
    lazyUnmountOk := fun _ => true
    forceUnmountOk := fun _ => true
    removeAllOk := fun _ => true }

/-- Overlay environment in which only the state-file write fails. -/
def envOvPersistFails : OvEnv := { envOvAllOk with persistOk := false }

/-- Overlay environment in which every merged directory is mounted and the
whole unmount ladder fails. -/
def envOvUnmountFails : OvEnv :=
  { envOvAllOk with
      isMounted := fun _ => true
      unmountOk := fun _ => false
      lazyUnmountOk := fun _ => false
      forceUnmountOk := fun _ => false }

/-- An overlay request for a snapshot at /snap. -/
def cfgOv : OvConfig := { snapshotPath := "/snap", containerMountPath := "/data" }

/-- A registered mount of container "c". -/
def mountC : Mount :=
  { id := "o1", containerID := "c", lowerDir := "/snap",
    upperDir := "/b/o1/upper", workDir := "/b/o1/work",
    mergedDir := "/b/o1/merged", containerPath := "/data", createdAt := 1 }

/-- An orphaned mount of container "d" recorded only in the state file. -/
def mountD : Mount :=
  { id := "o2", containerID := "d", lowerDir := "/snap",
    upperDir := "/b/o2/upper", workDir := "/b/o2/work",
    mergedDir := "/b/o2/merged", containerPath := "/data", createdAt := 2 }

/-- The empty manager state. -/
def stEmpty : OvState := { overlays := [], dirs := [], stateFile := .absent }

/-- A state in which container "c" is registered and persisted. -/
def stWithC : OvState :=
  { overlays := [("c", mountC)], dirs := ["o1"],
    stateFile := .good [("c", mountC)] }

/-- A state with container "c" registered and an orphaned mount of
container "d" recorded in the state file. -/
def stOrphanD : OvState :=
  { overlays := [("c", mountC)], dirs := ["o1", "o2"],
    stateFile := .good [("d", mountD)] }

end Overlay

/-! Helper lemmas about the filesystem model and path strings. -/

theorem fsGet_filter_of_keep {pr : String × FsNode → Bool} (q : String)
    (fs : FS) (h : ∀ e : String × FsNode, e.1 = q → pr e = true) :
    fsGet (fs.filter pr) q = fsGet fs q := by
  induction fs with
  | nil => rfl
  | cons e fs ih =>
    by_cases he : e.1 = q
    · have hp := h e he
      simp [fsGet, List.filter, hp, List.find?, he]
    · have hq : (e.1 == q) = false := by simp [he]
      cases hpe : pr e with
      | true => simp [fsGet, List.filter, hpe, List.find?, hq] at ih ⊢; exact ih
      | false => simp [fsGet, List.filter, hpe, List.find?, hq] at ih ⊢; exact ih

theorem fsGet_filter_of_drop {pr : String × FsNode → Bool} (q : String)
    (fs : FS) (h : ∀ e : String × FsNode, e.1 = q → pr e = false) :
    fsGet (fs.filter pr) q = none := by
  induction fs with
  | nil => rfl
  | cons e fs ih =>
    by_cases he : e.1 = q
    · have hp := h e he
      simpa [List.filter, hp] using ih
    · have hq : (e.1 == q) = false := by simp [he]
      cases hpe : pr e with
      | true => simp [fsGet, List.filter, hpe, List.find?, hq] at ih ⊢; exact ih
      | false => simpa [List.filter, hpe] using ih

theorem fsGet_fsSet_self (fs : FS) (p : String) (n : FsNode) :
    fsGet (fsSet fs p n) p = some n := by
  simp [fsGet, fsSet, List.find?]

theorem fsGet_fsSet_ne (fs : FS) (p : String) (n : FsNode) {q : String}
    (h : q ≠ p) : fsGet (fsSet fs p n) q = fsGet fs q := by
  have hq : (p == q) = false := by
    simp only [beq_eq_false_iff_ne, ne_eq]
    exact fun hc => h hc.symm
  simp only [fsSet, fsGet, List.find?, hq]
  exact fsGet_filter_of_keep q fs fun e he => by simp [he, h]

theorem fsGet_fsRemove_self (fs : FS) (p : String) :
    fsGet (fsRemove fs p) p = none :=
  fsGet_filter_of_drop p fs fun e he => by simp [he]

theorem fsGet_fsRemove_ne (fs : FS) (p : String) {q : String} (h : q ≠ p) :
    fsGet (fsRemove fs p) q = fsGet fs q :=
  fsGet_filter_of_keep q fs fun e he => by simp [he, h]

theorem fsRemove_fsRemove (fs : FS) (p : String) :
    fsRemove (fsRemove fs p) p = fsRemove fs p := by
  simp only [fsRemove, List.filter_filter]
  exact List.filter_congr fun e _ => by cases h : e.1 != p <;> simp [h]

theorem fsGet_fsRemoveAll_self (fs : FS) (p : String) :
    fsGet (fsRemoveAll fs p) p = none :=
  fsGet_filter_of_drop p fs fun e he => by simp [he]

theorem fsGet_fsRemoveAll_ne (fs : FS) (p : String) {q : String}
    (h : q ≠ p) (h2 : strPre (p ++ "/") q = false) :
    fsGet (fsRemoveAll fs p) q = fsGet fs q :=
  fsGet_filter_of_keep q fs fun e he => by
    subst he; simp [h, h2]

theorem fsGet_fsMkdir_self (fs : FS) (p : String) :
    fsGet (fsMkdir fs p) p = some .dir := by
  unfold fsMkdir
  split
  · assumption
  · exact fsGet_fsSet_self fs p .dir

theorem fsGet_fsMkdir_ne (fs : FS) (p : String) {q : String} (h : q ≠ p) :
    fsGet (fsMkdir fs p) q = fsGet fs q := by
  unfold fsMkdir
  split
  · rfl
  · exact fsGet_fsSet_ne fs p .dir h

/-! Path-string lemmas: appending distinct suffixes to one directory yields
distinct paths, and the fixed entry members are not below one another. -/

theorem list_isPrefixOf_append (l : List Char) (p s : List Char) :
    (l ++ p).isPrefixOf (l ++ s) = p.isPrefixOf s := by
  induction l with
  | nil => rfl
  | cons a l ih => simpa [List.isPrefixOf] using ih

theorem append_ne_of_data_ne (d : String) {x y : String}
    (h : x.data ≠ y.data) : d ++ x ≠ d ++ y := by
  intro hc
  exact h (List.append_cancel_left (congrArg String.data hc))

theorem self_ne_append (d : String) {x : String} (h : x.data ≠ []) :
    d ≠ d ++ x := by
  intro hc
  have h1 : d.data = d.data ++ x.data := congrArg String.data hc
  have h2 := congrArg List.length h1
  simp only [List.length_append, self_eq_add_right] at h2
  exact h (List.length_eq_zero.mp h2)

theorem strPre_append_cancel (d : String) (x y : String) :
    strPre (d ++ x) (d ++ y) = x.data.isPrefixOf y.data := by
  show ((d ++ x).data).isPrefixOf ((d ++ y).data) = _
  exact list_isPrefixOf_append d.data x.data y.data

theorem strPre_two_append (d : String) (x y z : String) :
    strPre ((d ++ x) ++ y) (d ++ z) = (x.data ++ y.data).isPrefixOf z.data := by
  show (((d ++ x) ++ y).data).isPrefixOf ((d ++ z).data) = _
  show ((d.data ++ x.data) ++ y.data).isPrefixOf (d.data ++ z.data) = _
  rw [List.append_assoc]
  exact list_isPrefixOf_append d.data (x.data ++ y.data) z.data

namespace Snapshot

theorem marker_ne_data (d : String) : markerOf d ≠ dataOf d :=
  append_ne_of_data_ne d (by decide)

theorem marker_ne_archive (d : String) : markerOf d ≠ archiveOf d :=
  append_ne_of_data_ne d (by decide)

theorem data_ne_archive (d : String) : dataOf d ≠ archiveOf d :=
  append_ne_of_data_ne d (by decide)

theorem archive_ne_data (d : String) : archiveOf d ≠ dataOf d :=
  append_ne_of_data_ne d (by decide)

theorem data_ne_marker (d : String) : dataOf d ≠ markerOf d :=
  append_ne_of_data_ne d (by decide)

theorem archive_ne_marker (d : String) : archiveOf d ≠ markerOf d :=
  append_ne_of_data_ne d (by decide)

theorem entry_ne_marker (d : String) : d ≠ markerOf d :=
  self_ne_append d (by decide)

theorem entry_ne_data (d : String) : d ≠ dataOf d :=
  self_ne_append d (by decide)

theorem entry_ne_archive (d : String) : d ≠ archiveOf d :=
  self_ne_append d (by decide)

theorem marker_not_under_data (d : String) :
    strPre (dataOf d ++ "/") (markerOf d) = false := by
  have h := strPre_two_append d ("/data") ("/") ("/.complete")
  simpa using h

theorem archive_not_under_data (d : String) :
    strPre (dataOf d ++ "/") (archiveOf d) = false := by
  have h := strPre_two_append d ("/data") ("/") ("/snapshot.tar.zst")
  simpa using h

/-- The downloader touches no path other than its destination. -/
theorem downloadFile_frame (env : SnapEnv) (dest : String) {q : String}
    (hq : q ≠ dest) :
    ∀ fuel attempt fs calls,
      fsGet (downloadFile env dest fuel attempt fs calls).fs q = fsGet fs q := by
  intro fuel
  induction fuel with
  | zero =>
    intro attempt fs calls
    rw [downloadFile]
    split
    · rfl
    · split
      · split <;> simp [fsGet_fsSet_ne _ _ _ hq]
      · split
        · split
          · rfl
          · split <;> simp [fsGet_fsSet_ne _ _ _ hq]
        · split
          · simp [fsGet_fsRemove_ne _ _ hq]
          · rfl
  | succ fuel ih =>
    intro attempt fs calls
    rw [downloadFile]
    split
    · rfl
    · split
      · split <;> simp [fsGet_fsSet_ne _ _ _ hq]
      · split
        · split
          · rfl
          · split <;> simp [fsGet_fsSet_ne _ _ _ hq]
        · split
          · rw [ih]; exact fsGet_fsRemove_ne _ _ hq
          · rfl

/-- In the 200 branch the destination is truncated and rewritten, whatever
the fuel. -/
theorem downloadFile_200_ok (env : SnapEnv) (dest : String) (fuel attempt : Nat)
    (fs : FS) (calls : Nat) {len w : Nat}
    (h : env.dl attempt = .resp 200 len (.ok w)) :
    downloadFile env dest fuel attempt fs calls
      = ⟨.ok (), fsSet fs dest (.file w), calls + 1⟩ := by
  cases fuel <;> · rw [downloadFile, h]; rfl

/-- In the 200 branch an interrupted body copy leaves the partial file. -/
theorem downloadFile_200_err (env : SnapEnv) (dest : String) (fuel attempt : Nat)
    (fs : FS) (calls : Nat) {len w : Nat}
    (h : env.dl attempt = .resp 200 len (.err w)) :
    downloadFile env dest fuel attempt fs calls
      = ⟨.error .copyFailed, fsSet fs dest (.file w), calls + 1⟩ := by
  cases fuel <;> · rw [downloadFile, h]; rfl

/-- State of the entry after a successful `downloadSnapshot`: the data
directory exists, the archive is gone, and when the marker write succeeded
the completion marker exists. -/
theorem downloadSnapshot_ok_state (env : SnapEnv) (fuel : Nat) (d : String)
    (fs : FS) (n : Nat) :
    ∀ out, downloadSnapshot env fuel d fs n = out → out.res = .ok () →
      fsGet out.fs (dataOf d) = some .dir ∧
      fsGet out.fs (archiveOf d) = none ∧
      (env.markerWriteOk = true → (fsGet out.fs (markerOf d)).isSome = true) := by
  intro out hout hres
  rcases hdf : downloadFile env (archiveOf d) fuel 0 (fsMkdir fs d) n
    with ⟨dres, fs1, calls1⟩
  unfold downloadSnapshot at hout
  rw [hdf] at hout
  cases henv : env.mkdirEntryOk with
  | false => rw [henv] at hout; subst hout; simp at hres
  | true =>
    rw [henv] at hout
    simp only [Bool.not_true, Bool.false_eq_true, if_false] at hout
    cases dres with
    | error e => subst hout; simp at hres
    | ok u =>
      cases u
      cases hmk : env.mkdirDataOk with
      | false => rw [hmk] at hout; subst hout; simp at hres
      | true =>
        rw [hmk] at hout
        simp only [Bool.not_true, Bool.false_eq_true, if_false] at hout
        cases hex : extractTarZst env with
        | error e => rw [hex] at hout; subst hout; simp at hres
        | ok u =>
          cases u
          rw [hex] at hout
          cases hmw : env.markerWriteOk with
          | false =>
            rw [hmw] at hout
            simp only [Bool.false_eq_true, if_false] at hout
            subst hout
            refine ⟨?_, ?_, fun hc => by simp [hmw] at hc⟩
            · show fsGet (fsRemove (fsMkdir fs1 (dataOf d)) (archiveOf d))
                (dataOf d) = some .dir
              rw [fsGet_fsRemove_ne _ _ (data_ne_archive d)]
              exact fsGet_fsMkdir_self _ _
            · show fsGet (fsRemove (fsMkdir fs1 (dataOf d)) (archiveOf d))
                (archiveOf d) = none
              exact fsGet_fsRemove_self _ _
          | true =>
            rw [hmw] at hout
            simp only [if_true] at hout
            subst hout
            refine ⟨?_, ?_, fun _ => ?_⟩
            · show fsGet (fsSet (fsRemove (fsMkdir fs1 (dataOf d)) (archiveOf d))
                (markerOf d) (.file 25)) (dataOf d) = some .dir
              rw [fsGet_fsSet_ne _ _ _ (data_ne_marker d)]
              rw [fsGet_fsRemove_ne _ _ (data_ne_archive d)]
              exact fsGet_fsMkdir_self _ _
            · show fsGet (fsSet (fsRemove (fsMkdir fs1 (dataOf d)) (archiveOf d))
                (markerOf d) (.file 25)) (archiveOf d) = none
              rw [fsGet_fsSet_ne _ _ _ (archive_ne_marker d)]
              exact fsGet_fsRemove_self _ _
            · show (fsGet (fsSet (fsRemove (fsMkdir fs1 (dataOf d)) (archiveOf d))
                (markerOf d) (.file 25)) (markerOf d)).isSome = true
              rw [fsGet_fsSet_self]; rfl

/-- The completion marker is untouched by every failing run of
`downloadSnapshot`: it is written only after download, extraction and
archive removal have all succeeded. -/
theorem downloadSnapshot_err_marker (env : SnapEnv) (fuel : Nat) (d : String)
    (fs : FS) (n : Nat) :
    ∀ out e, downloadSnapshot env fuel d fs n = out → out.res = .error e →
      fsGet out.fs (markerOf d) = fsGet fs (markerOf d) := by
  intro out e hout hres
  rcases hdf : downloadFile env (archiveOf d) fuel 0 (fsMkdir fs d) n
    with ⟨dres, fs1, calls1⟩
  have hfs1 : fsGet fs1 (markerOf d) = fsGet fs (markerOf d) := by
    have h1 := downloadFile_frame env (archiveOf d)
      (marker_ne_archive d) fuel 0 (fsMkdir fs d) n
    rw [hdf] at h1
    rw [h1]
    exact fsGet_fsMkdir_ne _ _ ((entry_ne_marker d).symm)
  unfold downloadSnapshot at hout
  rw [hdf] at hout
  cases henv : env.mkdirEntryOk with
  | false => rw [henv] at hout; subst hout; rfl
  | true =>
    rw [henv] at hout
    simp only [Bool.not_true, Bool.false_eq_true, if_false] at hout
    cases dres with
    | error e1 => subst hout; exact hfs1
    | ok u =>
      cases u
      cases hmk : env.mkdirDataOk with
      | false => rw [hmk] at hout; subst hout; exact hfs1
      | true =>
        rw [hmk] at hout
        simp only [Bool.not_true, Bool.false_eq_true, if_false] at hout
        cases hex : extractTarZst env with
        | error e1 =>
          rw [hex] at hout
          subst hout
          show fsGet (fsRemoveAll (fsMkdir fs1 (dataOf d)) (dataOf d))
            (markerOf d) = fsGet fs (markerOf d)
          rw [fsGet_fsRemoveAll_ne _ _ (marker_ne_data d)
            (marker_not_under_data d)]
          rw [fsGet_fsMkdir_ne _ _ (marker_ne_data d)]
          exact hfs1
        | ok u =>
          cases u
          rw [hex] at hout
          cases hmw : env.markerWriteOk with
          | false =>
            rw [hmw] at hout
            simp only [Bool.false_eq_true, if_false] at hout
            subst hout
            simp at hres
          | true =>
            rw [hmw] at hout
            simp only [if_true] at hout
            subst hout
            simp at hres

end Snapshot

namespace Overlay

theorem regFind_regErase_self (reg : List (String × Mount)) (cid : String) :
    regFind (regErase reg cid) cid = none := by
  induction reg with
  | nil => rfl
  | cons e reg ih =>
    by_cases he : e.1 = cid
    · simpa [regErase, List.filter, he] using ih
    · have hq : (e.1 == cid) = false := by simp [he]
      simp only [regErase, List.filter, hq, bne] at ih ⊢
      simp only [Bool.not_false, regFind, List.find?, hq] at ih ⊢
      exact ih

theorem not_mem_dirsErase (dirs : List String) (id : String) :
    id ∉ dirsErase dirs id := by
  intro hmem
  rcases List.mem_filter.mp hmem with ⟨-, hp⟩
  simp at hp

theorem dirsErase_cons_self (dirs : List String) (id : String) :
    dirsErase (id :: dirs) id = dirsErase dirs id := by
  simp [dirsErase, List.filter]

theorem dirsErase_of_not_mem {dirs : List String} {id : String}
    (h : id ∉ dirs) : dirsErase dirs id = dirs :=
  List.filter_eq_self.mpr fun x hx => by
    simp only [bne_iff_ne, ne_eq]
    exact fun hc => h (hc ▸ hx)

theorem persistState_overlays (env : OvEnv) (st : OvState) :
    (persistState env st).overlays = st.overlays := by
  unfold persistState
  split
  · rfl
  · split <;> rfl

theorem persistState_dirs (env : OvEnv) (st : OvState) :
    (persistState env st).dirs = st.dirs := by
  unfold persistState
  split
  · rfl
  · split <;> rfl

theorem persistState_consistent (env : OvEnv) (st : OvState)
    (hp : env.persistOk = true) : stateConsistent (persistState env st) := by
  unfold persistState
  cases hov : st.overlays.isEmpty with
  | true =>
    simp only [if_true]
    exact ⟨fun _ => rfl, fun hne => absurd (List.isEmpty_iff.mp hov) hne⟩
  | false =>
    simp only [Bool.false_eq_true, if_false, hp, if_true]
    constructor
    · intro hnil
      exfalso
      rw [show st.overlays = [] from hnil] at hov
      simp at hov
    · intro _
      rfl

theorem cleanupMount_ok_shape (env : OvEnv) (m : Mount) (d d' : List String)
    (h : cleanupMount env m d = .ok d') : d' = dirsErase d m.id := by
  unfold cleanupMount cleanupDirs at h
  repeat' split at h
  all_goals simp_all

theorem cleanupMount_of_canCleanup (env : OvEnv) (m : Mount)
    (d : List String) (h : canCleanup env m = true) :
    cleanupMount env m d = .ok (dirsErase d m.id) := by
  unfold canCleanup at h
  rw [Bool.and_eq_true] at h
  obtain ⟨hor, hrm⟩ := h
  unfold cleanupMount cleanupDirs
  cases h1 : env.isMounted m.mergedDir with
  | false => simp [h1, hrm]
  | true =>
    rw [h1] at hor
    cases h2 : env.unmountOk m.mergedDir with
    | true => simp [h1, h2, hrm]
    | false =>
      rw [h2] at hor
      cases h3 : env.lazyUnmountOk m.mergedDir with
      | true => simp [h1, h2, h3, hrm]
      | false =>
        rw [h3] at hor
        cases h4 : env.forceUnmountOk m.mergedDir with
        | true => simp [h1, h2, h3, h4, hrm]
        | false => rw [h4] at hor; simp at hor

/-- One step of the orphan-recovery fold never adds a directory. -/
theorem recoverStep_subset (env : OvEnv) (m : Mount) (d : List String)
    {x : String}
    (h : x ∈ (match cleanupMount env m d with
              | .ok d' => d'
              | .error _ => d)) : x ∈ d := by
  cases hcm : cleanupMount env m d with
  | error e => rw [hcm] at h; exact h
  | ok d' =>
    rw [hcm] at h
    rw [cleanupMount_ok_shape env m d d' hcm] at h
    exact (List.mem_filter.mp h).1

theorem recoverFold_not_mem (env : OvEnv)
    (entries : List (String × Mount)) {x : String} :
    ∀ d, x ∉ d →
      x ∉ entries.foldl
        (fun d e =>
          match cleanupMount env e.2 d with
          | .ok d' => d'
          | .error _ => d)
        d := by
  induction entries with
  | nil => intro d h; exact h
  | cons e entries ih =>
    intro d h
    simp only [List.foldl_cons]
    exact ih _ fun hc => h (recoverStep_subset env e.2 d hc)

theorem recoverFold_removes (env : OvEnv) :
    ∀ (entries : List (String × Mount)) (d : List String) (c : String)
      (m : Mount), (c, m) ∈ entries → canCleanup env m = true →
      m.id ∉ entries.foldl
        (fun d e =>
          match cleanupMount env e.2 d with
          | .ok d' => d'
          | .error _ => d)
        d := by
  intro entries
  induction entries with
  | nil => intro d c m hmem; exact absurd hmem (List.not_mem_nil _)
  | cons e entries ih =>
    intro d c m hmem hcc
    rcases List.mem_cons.mp hmem with heq | htail
    · subst heq
      simp only [List.foldl_cons, cleanupMount_of_canCleanup env m d hcc]
      exact recoverFold_not_mem env entries _ (not_mem_dirsErase d m.id)
    · simp only [List.foldl_cons]
      exact ih _ c m htail hcc

end Overlay

/-! Claim theorems -/

/-- Claim C3, counterexample.  With a server answering 416 to the first and
the second request and 200 to the third, `downloadFile` deletes the local
file and retries after the second 416 exactly as after the first, and the
download then succeeds having made three requests — the code does not fail
with a hard error after a second 416. -/
theorem claim_C3_counterexample :
    Snapshot.downloadFile Snapshot.env416Twice ("/f") 10 0 [] 0
      = ⟨.ok (), [(("/f"), .file 7)], 3⟩ := by decide

/-- Claim C3, amended: on a 416 response `downloadFile` deletes the local
file and unconditionally retries from scratch, and does so again on every
further 416 with no retry bound and no hard error: against a server that
always answers 416 it keeps re-requesting until the fuel bound of the model
is exhausted (fuel+1 requests for every fuel), mirroring the unbounded Go
recursion. -/
theorem claim_C3_amended (env : Snapshot.SnapEnv)
    (h : ∀ n, env.dl n = .resp 416 0 (.ok 0)) (dest : String) :
    ∀ fuel attempt fs calls,
      Snapshot.downloadFile env dest fuel attempt fs calls
        = ⟨.error .fuelOut, fsRemove fs dest, calls + fuel + 1⟩ := by
  intro fuel
  induction fuel with
  | zero =>
    intro attempt fs calls
    rw [Snapshot.downloadFile, h]
    rfl
  | succ fuel ih =>
    intro attempt fs calls
    rw [Snapshot.downloadFile, h]
    show Snapshot.downloadFile env dest fuel (attempt + 1)
      (fsRemove fs dest) (calls + 1) = _
    rw [ih, fsRemove_fsRemove]
    congr 1
    omega

/-- Claim C3, witness for the amended theorem at fuel bound 2: three
requests are made and no hard HTTP error is returned. -/
theorem claim_C3_witness :
    (∀ n, Snapshot.env416Always.dl n = .resp 416 0 (.ok 0)) ∧
    Snapshot.downloadFile Snapshot.env416Always ("/f") 2 0 [] 0
      = ⟨.error .fuelOut, fsRemove [] ("/f"), 0 + 2 + 1⟩ :=
  ⟨fun _ => rfl,
    claim_C3_amended Snapshot.env416Always (fun _ => rfl) ("/f") 2 0 [] 0⟩

/-- Claim C4, counterexample.  A fetch attempt made through the hivesim
SnapshotManager with a five-byte partial archive on disk and a download
that fails on the wire ends with the whole entry directory removed: the
partially written archive is deleted, contrary to the claim that it is
preserved on every fetch attempt. -/
theorem claim_C4_counterexample :
    (SM.downloadSnapshot SM.smEnvNetFail ("/c/mainnet/geth/100")
        [(Snapshot.archiveOf ("/c/mainnet/geth/100"), .file 5),
          (("/c/mainnet/geth/100"), .dir)]).1
      = .error (.downloadFailed .transport)
    ∧ fsGet (SM.downloadSnapshot SM.smEnvNetFail ("/c/mainnet/geth/100")
        [(Snapshot.archiveOf ("/c/mainnet/geth/100"), .file 5),
          (("/c/mainnet/geth/100"), .dir)]).2
        (Snapshot.archiveOf ("/c/mainnet/geth/100")) = none := by
  constructor <;> decide

/-- Claim C4, amended: the stated preservation holds for the internal
snapshot Fetcher's `downloadSnapshot` (but not for the hivesim
SnapshotManager, which removes the whole entry directory on failure).
First conjunct: a download interrupted mid-copy leaves the partial archive
in place.  Second conjunct: a failed extraction preserves the archive and
removes the data directory. -/
theorem claim_C4_amended :
    (∀ (env : Snapshot.SnapEnv) (fuel : Nat) (d : String) (fs : FS)
       (n len w : Nat),
       env.mkdirEntryOk = true → env.dl 0 = .resp 200 len (.err w) →
       (Snapshot.downloadSnapshot env fuel d fs n).res
           = .error (.downloadFailed .copyFailed) ∧
         fsGet (Snapshot.downloadSnapshot env fuel d fs n).fs
           (Snapshot.archiveOf d) = some (.file w))
    ∧ (∀ (env : Snapshot.SnapEnv) (fuel : Nat) (d : String) (fs : FS)
        (n len w : Nat),
        env.mkdirEntryOk = true → env.mkdirDataOk = true →
        env.dl 0 = .resp 200 len (.ok w) →
        env.zstdAvailable = true → env.extractOk = false →
        (Snapshot.downloadSnapshot env fuel d fs n).res
            = .error .extractRunFailed ∧
          fsGet (Snapshot.downloadSnapshot env fuel d fs n).fs
            (Snapshot.archiveOf d) = some (.file w) ∧
          fsGet (Snapshot.downloadSnapshot env fuel d fs n).fs
            (Snapshot.dataOf d) = none) := by
  constructor
  · intro env fuel d fs n len w h1 h2
    unfold Snapshot.downloadSnapshot
    rw [Snapshot.downloadFile_200_err env (Snapshot.archiveOf d) fuel 0
      (fsMkdir fs d) n h2]
    simp only [h1, Bool.not_true, Bool.false_eq_true, if_false]
    exact ⟨by trivial, fsGet_fsSet_self _ _ _⟩
  · intro env fuel d fs n len w h1 h2 h3 h4 h5
    unfold Snapshot.downloadSnapshot
    rw [Snapshot.downloadFile_200_ok env (Snapshot.archiveOf d) fuel 0
      (fsMkdir fs d) n h3]
    have hex : Snapshot.extractTarZst env = .error .extractRunFailed := by
      simp [Snapshot.extractTarZst, h4, h5]
    simp only [h1, h2, Bool.not_true, Bool.false_eq_true, if_false, hex]
    refine ⟨by trivial, ?_, ?_⟩
    · show fsGet (fsRemoveAll (fsMkdir (fsSet (fsMkdir fs d)
        (Snapshot.archiveOf d) (.file w)) (Snapshot.dataOf d))
        (Snapshot.dataOf d)) (Snapshot.archiveOf d) = some (.file w)
      rw [fsGet_fsRemoveAll_ne _ _ (Snapshot.archive_ne_data d)
        (Snapshot.archive_not_under_data d)]
      rw [fsGet_fsMkdir_ne _ _ (Snapshot.archive_ne_data d)]
      exact fsGet_fsSet_self _ _ _
    · show fsGet (fsRemoveAll (fsMkdir (fsSet (fsMkdir fs d)
        (Snapshot.archiveOf d) (.file w)) (Snapshot.dataOf d))
        (Snapshot.dataOf d)) (Snapshot.dataOf d) = none
      exact fsGet_fsRemoveAll_self _ _

/-- Claim C4, witness: the amended theorem evaluated on an interrupted
five-byte download and on a failing extraction, over an empty cache. -/
theorem claim_C4_witness :
    ((Snapshot.downloadSnapshot Snapshot.envCopyInterrupted 3 ("/e") [] 0).res
        = .error (.downloadFailed .copyFailed) ∧
      fsGet (Snapshot.downloadSnapshot Snapshot.envCopyInterrupted 3
        ("/e") [] 0).fs (Snapshot.archiveOf ("/e")) = some (.file 5))
    ∧ ((Snapshot.downloadSnapshot Snapshot.envExtractFails 3 ("/e") [] 0).res
        = .error .extractRunFailed ∧
      fsGet (Snapshot.downloadSnapshot Snapshot.envExtractFails 3
        ("/e") [] 0).fs (Snapshot.archiveOf ("/e")) = some (.file 10) ∧
      fsGet (Snapshot.downloadSnapshot Snapshot.envExtractFails 3
        ("/e") [] 0).fs (Snapshot.dataOf ("/e")) = none) :=
  ⟨claim_C4_amended.1 Snapshot.envCopyInterrupted 3 ("/e") [] 0 9 5 rfl rfl,
    claim_C4_amended.2 Snapshot.envExtractFails 3 ("/e") [] 0 10 10
      rfl rfl rfl rfl rfl⟩

/-- Claim C1, counterexample.  When the final marker write fails — which
the Go code only logs before returning success — EnsureSnapshot returns
without error, yet the completion marker does not exist in the computed
entry path. -/
theorem claim_C1_counterexample :
    (Snapshot.ensureSnapshot Snapshot.envMarkerFails 5
        Snapshot.cfgBlock100 []).res = .ok ("/c/mainnet/geth/100/data")
    ∧ fsGet (Snapshot.ensureSnapshot Snapshot.envMarkerFails 5
        Snapshot.cfgBlock100 []).fs
        (Snapshot.markerOf ("/c/mainnet/geth/100")) = none := by
  constructor <;> decide

/-- Claim C1, amended: from a cache satisfying I-1 and provided the final
marker write itself does not fail (its failure is only logged), a
successful EnsureSnapshot leaves `data/` a directory and the `.complete`
marker present in the computed entry path; and (second conjunct) on every
failing run the marker is untouched, so it is written only after download,
extraction and archive deletion have all succeeded. -/
theorem claim_C1_amended :
    (∀ (env : Snapshot.SnapEnv) (fuel : Nat) (cfg : Snapshot.SnapConfig)
       (fs : FS) (p : String) (out : Snapshot.SnapOut String),
       Snapshot.wfCache fs → env.markerWriteOk = true →
       Snapshot.ensureSnapshot env fuel cfg fs = out → out.res = .ok p →
       ∃ d, p = Snapshot.dataOf d ∧
         fsGet out.fs (Snapshot.dataOf d) = some .dir ∧
         (fsGet out.fs (Snapshot.markerOf d)).isSome = true)
    ∧ (∀ (env : Snapshot.SnapEnv) (fuel : Nat) (d : String) (fs : FS)
        (n : Nat) (out : Snapshot.SnapOut Unit) (e : Snapshot.SnapErr),
        Snapshot.downloadSnapshot env fuel d fs n = out →
        out.res = .error e →
        fsGet out.fs (Snapshot.markerOf d) = fsGet fs (Snapshot.markerOf d)) := by
  constructor
  · intro env fuel cfg fs p out hwf hmk hout hres
    simp only [Snapshot.ensureSnapshot] at hout
    split at hout
    · subst hout
      exact absurd hres (by simp)
    · rename_i bn n heq
      split at hout
      · rename_i node hmark
        subst hout
        refine ⟨Snapshot.entryDir cfg bn, ?_, ?_, ?_⟩
        · exact (Except.ok.inj hres).symm
        · exact hwf _ (by rw [hmark]; rfl)
        · rw [hmark]; rfl
      · rename_i hmark
        split at hout
        · subst hout
          exact absurd hres (by simp)
        · rename_i fs1 calls1 heq2
          subst hout
          have hok := Snapshot.downloadSnapshot_ok_state env fuel
            (Snapshot.entryDir cfg bn) fs n _ heq2 rfl
          refine ⟨Snapshot.entryDir cfg bn, ?_, ?_, ?_⟩
          · exact (Except.ok.inj hres).symm
          · exact hok.1
          · exact hok.2.2 hmk
  · intro env fuel d fs n out e hout hres
    exact Snapshot.downloadSnapshot_err_marker env fuel d fs n out e hout hres

/-- Claim C1, witness: the amended theorem evaluated on a fully successful
fetch of block 100 over an empty cache. -/
theorem claim_C1_witness :
    Snapshot.wfCache [] ∧ Snapshot.envAllOk.markerWriteOk = true ∧
    (∃ d, ("/c/mainnet/geth/100/data") = Snapshot.dataOf d ∧
      fsGet (Snapshot.ensureSnapshot Snapshot.envAllOk 5
        Snapshot.cfgBlock100 []).fs (Snapshot.dataOf d) = some .dir ∧
      (fsGet (Snapshot.ensureSnapshot Snapshot.envAllOk 5
        Snapshot.cfgBlock100 []).fs (Snapshot.markerOf d)).isSome = true) := by
  have hwf : Snapshot.wfCache [] := fun d h => by simp [fsGet] at h
  refine ⟨hwf, rfl, ?_⟩
  exact claim_C1_amended.1 Snapshot.envAllOk 5 Snapshot.cfgBlock100 []
    ("/c/mainnet/geth/100/data") _ hwf rfl rfl (by decide)

set_option maxRecDepth 32000 in
/-- Claim C2, counterexample.  For the identifier mainnet/geth/latest: the
first EnsureSnapshot succeeds and leaves the completion marker in the
computed entry path (so the entry "already has the marker"), yet the
immediately following EnsureSnapshot for the same identifier performs one
HTTP request (resolving "latest" again) rather than zero network I/O. -/
theorem claim_C2_counterexample :
    (Snapshot.ensureSnapshot Snapshot.envAllOk 5 Snapshot.cfgLatest []).res
        = .ok ("/c/mainnet/geth/100/data")
    ∧ (fsGet (Snapshot.ensureSnapshot Snapshot.envAllOk 5
        Snapshot.cfgLatest []).fs
        (Snapshot.markerOf ("/c/mainnet/geth/100"))).isSome = true
    ∧ (Snapshot.ensureSnapshot Snapshot.envAllOk 5 Snapshot.cfgLatest
        (Snapshot.ensureSnapshot Snapshot.envAllOk 5
          Snapshot.cfgLatest []).fs).calls = 1 := by
  refine ⟨by decide, by decide, by decide⟩

/-- Claim C2, amended: for every identifier with a concrete block number
(neither empty nor "latest") whose entry has the completion marker,
EnsureSnapshot returns the entry's data path immediately with zero HTTP
requests and an unchanged filesystem, for every environment — hence a
repeated call returns the same path with no network I/O and no mutation.
For "latest" identifiers one resolve request is always made first. -/
theorem claim_C2_amended (env : Snapshot.SnapEnv) (fuel : Nat)
    (cfg : Snapshot.SnapConfig) (fs : FS)
    (h0 : cfg.blockNumber ≠ "") (h1 : cfg.blockNumber ≠ "latest")
    (hm : (fsGet fs (Snapshot.markerOf
      (Snapshot.entryDir cfg cfg.blockNumber))).isSome = true) :
    Snapshot.ensureSnapshot env fuel cfg fs
      = ⟨.ok (Snapshot.dataOf (Snapshot.entryDir cfg cfg.blockNumber)),
          fs, 0⟩ := by
  have hb0 : (cfg.blockNumber == "") = false := by simp [h0]
  have hb1 : (cfg.blockNumber == "latest") = false := by simp [h1]
  obtain ⟨node, hnode⟩ := Option.isSome_iff_exists.mp hm
  simp only [Snapshot.ensureSnapshot, hb0, Bool.false_eq_true, if_false,
    hb1, hnode]

/-- Claim C2, witness: the amended theorem evaluated on a pre-populated
cache entry for mainnet/geth/100. -/
theorem claim_C2_witness :
    Snapshot.cfgBlock100.blockNumber ≠ "" ∧
    Snapshot.cfgBlock100.blockNumber ≠ "latest" ∧
    (fsGet Snapshot.fsCached100 (Snapshot.markerOf
      (Snapshot.entryDir Snapshot.cfgBlock100
        Snapshot.cfgBlock100.blockNumber))).isSome = true ∧
    Snapshot.ensureSnapshot Snapshot.envAllOk 5 Snapshot.cfgBlock100
        Snapshot.fsCached100
      = ⟨.ok (Snapshot.dataOf (Snapshot.entryDir Snapshot.cfgBlock100
          Snapshot.cfgBlock100.blockNumber)), Snapshot.fsCached100, 0⟩ :=
  ⟨by decide, by decide, by decide,
    claim_C2_amended Snapshot.envAllOk 5 Snapshot.cfgBlock100
      Snapshot.fsCached100 (by decide) (by decide) (by decide)⟩

/-- Claim C5: CreateOverlay rejects a duplicate container id with
OverlayExists, a missing snapshot path with SnapshotNotFound and a
non-directory snapshot path with SnapshotNotDirectory; and on every error
the freshly created overlay tree has been removed and no registry entry
created, leaving the whole manager state unchanged. -/
theorem claim_C5_create_checks_and_rollback :
    ∀ (env : Overlay.OvEnv) (st : Overlay.OvState) (cid : String)
      (cfg : Overlay.OvConfig),
      Overlay.overlayIdFor env cid ∉ st.dirs →
      ((Overlay.regFind st.overlays cid).isSome = true →
        Overlay.createOverlay env st cid cfg = (.err .overlayExists, st)) ∧
      ((Overlay.regFind st.overlays cid).isSome = false →
        env.snapStat cfg.snapshotPath = .notExist →
        Overlay.createOverlay env st cid cfg = (.err .snapshotNotFound, st)) ∧
      ((Overlay.regFind st.overlays cid).isSome = false →
        env.snapStat cfg.snapshotPath = .file →
        Overlay.createOverlay env st cid cfg
          = (.err .snapshotNotDirectory, st)) ∧
      (∀ e st', Overlay.createOverlay env st cid cfg = (.err e, st') →
        st' = st) := by
  intro env st cid cfg hfresh
  refine ⟨?_, ?_, ?_, ?_⟩
  · intro h
    simp [Overlay.createOverlay, h]
  · intro h hs
    simp [Overlay.createOverlay, h, hs]
  · intro h hs
    simp [Overlay.createOverlay, h, hs]
  · intro e st' hout
    simp only [Overlay.createOverlay] at hout
    split at hout
    · injection hout with h1 h2
      exact h2.symm
    · split at hout
      · injection hout with h1 h2
        exact h2.symm
      · injection hout with h1 h2
        exact h2.symm
      · injection hout with h1 h2
        exact h2.symm
      · split at hout
        · injection hout with h1 h2
          exact absurd h1 (by simp)
        · split at hout
          · injection hout with h1 h2
            rw [← h2, Overlay.dirsErase_of_not_mem hfresh]
          · split at hout
            · injection hout with h1 h2
              rw [← h2, Overlay.dirsErase_cons_self,
                Overlay.dirsErase_of_not_mem hfresh]
            · injection hout with h1 h2
              rw [← h2, Overlay.dirsErase_cons_self,
                Overlay.dirsErase_of_not_mem hfresh]
            · injection hout with h1 h2
              exact absurd h1 (by simp)

/-- Claim C5, witness: a duplicate registration is rejected with
OverlayExists and an unchanged state. -/
theorem claim_C5_witness :
    (Overlay.overlayIdFor Overlay.envOvAllOk ("c") ∉ Overlay.stWithC.dirs) ∧
    Overlay.createOverlay Overlay.envOvAllOk Overlay.stWithC ("c")
        Overlay.cfgOv = (.err .overlayExists, Overlay.stWithC) := by
  have hfresh : Overlay.overlayIdFor Overlay.envOvAllOk ("c")
      ∉ Overlay.stWithC.dirs := by decide
  exact ⟨hfresh,
    (claim_C5_create_checks_and_rollback Overlay.envOvAllOk Overlay.stWithC
      ("c") Overlay.cfgOv hfresh).1 (by decide)⟩

/-- Claim C6: when the whole unmount escalation fails for a registered
container, CleanupOverlay returns UnmountFailed and leaves the state — in
particular the registry entry — untouched, so a later call can retry; and
on every CleanupOverlay error the entry stays registered (deregistration
happens only on success of the unmount-and-remove). -/
theorem claim_C6_unmount_failure_retains_entry :
    (∀ (env : Overlay.OvEnv) (st : Overlay.OvState) (cid : String)
       (m : Overlay.Mount),
       Overlay.regFind st.overlays cid = some m →
       env.isMounted m.mergedDir = true →
       env.unmountOk m.mergedDir = false →
       env.lazyUnmountOk m.mergedDir = false →
       env.forceUnmountOk m.mergedDir = false →
       Overlay.cleanupOverlay env st cid = (.error .unmountFailed, st))
    ∧ (∀ (env : Overlay.OvEnv) (st : Overlay.OvState) (cid : String)
        (m : Overlay.Mount) (e : Overlay.CleanupErr) (st' : Overlay.OvState),
        Overlay.regFind st.overlays cid = some m →
        Overlay.cleanupOverlay env st cid = (.error e, st') →
        st' = st ∧ Overlay.regFind st'.overlays cid = some m) := by
  constructor
  · intro env st cid m hreg h1 h2 h3 h4
    have hcm : Overlay.cleanupMount env m st.dirs = .error .unmountFailed := by
      simp [Overlay.cleanupMount, h1, h2, h3, h4]
    simp [Overlay.cleanupOverlay, hreg, hcm]
  · intro env st cid m e st' hreg hout
    simp only [Overlay.cleanupOverlay, hreg] at hout
    split at hout
    · injection hout with h1 h2
      subst h2
      exact ⟨rfl, hreg⟩
    · injection hout with h1 h2
      exact absurd h1 (by simp)

/-- Claim C6, witness: a stuck mount of container "c" makes CleanupOverlay
fail with UnmountFailed while retaining the registry entry. -/
theorem claim_C6_witness :
    Overlay.regFind Overlay.stWithC.overlays ("c") = some Overlay.mountC ∧
    Overlay.cleanupOverlay Overlay.envOvUnmountFails Overlay.stWithC ("c")
      = (.error .unmountFailed, Overlay.stWithC) :=
  ⟨by decide,
    claim_C6_unmount_failure_retains_entry.1 Overlay.envOvUnmountFails
      Overlay.stWithC ("c") Overlay.mountC (by decide) rfl rfl rfl rfl⟩

/-- Claim C7: CleanupOverlay is idempotent — an unregistered container id
succeeds with no change, so of two consecutive calls both succeed and the
second is a no-op; and after a successful call GetOverlay answers
not-present and the overlay directory tree of the formerly registered
mount is gone. -/
theorem claim_C7_cleanup_idempotent :
    ∀ (env : Overlay.OvEnv) (st : Overlay.OvState) (cid : String),
      (Overlay.regFind st.overlays cid = none →
        Overlay.cleanupOverlay env st cid = (.ok (), st)) ∧
      (∀ st', Overlay.cleanupOverlay env st cid = (.ok (), st') →
        Overlay.cleanupOverlay env st' cid = (.ok (), st') ∧
        Overlay.getOverlay st' cid = none ∧
        ∀ m, Overlay.regFind st.overlays cid = some m →
          m.id ∉ st'.dirs) := by
  intro env st cid
  constructor
  · intro h
    simp [Overlay.cleanupOverlay, h]
  · intro st' hout
    cases hreg : Overlay.regFind st.overlays cid with
    | none =>
      simp only [Overlay.cleanupOverlay, hreg] at hout
      injection hout with h1 h2
      subst h2
      refine ⟨by simp [Overlay.cleanupOverlay, hreg], ?_, ?_⟩
      · show Overlay.regFind st.overlays cid = none
        exact hreg
      · intro m hm
        exact absurd hm (by simp)
    | some m =>
      simp only [Overlay.cleanupOverlay, hreg] at hout
      split at hout
      · injection hout with h1 h2
        exact absurd h1 (by simp)
      · rename_i d' hcm
        injection hout with h1 h2
        have hov : st'.overlays = Overlay.regErase st.overlays cid := by
          rw [← h2, Overlay.persistState_overlays]
        have hdi : st'.dirs = d' := by
          rw [← h2, Overlay.persistState_dirs]
        have hnone : Overlay.regFind st'.overlays cid = none := by
          rw [hov]
          exact Overlay.regFind_regErase_self _ _
        refine ⟨by simp [Overlay.cleanupOverlay, hnone], hnone, ?_⟩
        intro m' hm'
        have hmm : m' = m := by
          injection hm' with h
          exact h.symm
        rw [hmm, hdi, Overlay.cleanupMount_ok_shape env m st.dirs d' hcm]
        exact Overlay.not_mem_dirsErase _ _

/-- Claim C7, witness: cleanup of the registered container "c" followed by
a second cleanup, evaluated concretely. -/
theorem claim_C7_witness :
    Overlay.cleanupOverlay Overlay.envOvAllOk Overlay.stWithC ("c")
        = (.ok (), Overlay.stEmpty) ∧
    Overlay.cleanupOverlay Overlay.envOvAllOk Overlay.stEmpty ("c")
        = (.ok (), Overlay.stEmpty) ∧
    Overlay.getOverlay Overlay.stEmpty ("c") = none ∧
    ∀ m, Overlay.regFind Overlay.stWithC.overlays ("c") = some m →
      m.id ∉ Overlay.stEmpty.dirs := by
  have h : Overlay.cleanupOverlay Overlay.envOvAllOk Overlay.stWithC ("c")
      = (.ok (), Overlay.stEmpty) := by decide
  have h2 := (claim_C7_cleanup_idempotent Overlay.envOvAllOk Overlay.stWithC
    ("c")).2 Overlay.stEmpty h
  exact ⟨h, h2.1, h2.2.1, h2.2.2⟩

/-- Claim C8, counterexample.  With a failing state-file write — which the
Go code only logs — CreateOverlay still succeeds and registers the mount,
but state.json does not hold a snapshot of the now non-empty registry, so
the claimed persistence property does not hold after this registry
change. -/
theorem claim_C8_counterexample :
    (Overlay.createOverlay Overlay.envOvPersistFails Overlay.stEmpty
        ("abcdefghijkl") Overlay.cfgOv).1
      = .ok { id := ("abcdefghijkl_7"), containerID := ("abcdefghijkl"),
              lowerDir := ("/snap"),
              upperDir := ("/b/abcdefghijkl_7/upper"),
              workDir := ("/b/abcdefghijkl_7/work"),
              mergedDir := ("/b/abcdefghijkl_7/merged"),
              containerPath := ("/data"), createdAt := 7 }
    ∧ (Overlay.createOverlay Overlay.envOvPersistFails Overlay.stEmpty
        ("abcdefghijkl") Overlay.cfgOv).2.overlays ≠ []
    ∧ (Overlay.createOverlay Overlay.envOvPersistFails Overlay.stEmpty
        ("abcdefghijkl") Overlay.cfgOv).2.stateFile = .absent
    ∧ ¬ Overlay.stateConsistent (Overlay.createOverlay
        Overlay.envOvPersistFails Overlay.stEmpty
        ("abcdefghijkl") Overlay.cfgOv).2 := by
  refine ⟨by decide, by decide, by decide, by decide⟩

/-- Claim C8, amended: provided the state-file write succeeds (its failure
is logged and suppressed by the Go code), after a successful CreateOverlay,
after a successful CleanupOverlay of a registered container, after
CleanupAll, and after a successful RecoverOrphanedMounts run from the
empty registry it is called with at process start, the on-disk state file
holds a snapshot of the registry and is removed whenever the registry is
empty.  Each operation runs under the registry lock and is modelled as one
atomic transformer, persistence included. -/
theorem claim_C8_amended (env : Overlay.OvEnv) (hp : env.persistOk = true) :
    (∀ st cid cfg m, (Overlay.createOverlay env st cid cfg).1 = .ok m →
      Overlay.stateConsistent (Overlay.createOverlay env st cid cfg).2) ∧
    (∀ st cid, (Overlay.regFind st.overlays cid).isSome = true →
      (Overlay.cleanupOverlay env st cid).1 = .ok () →
      Overlay.stateConsistent (Overlay.cleanupOverlay env st cid).2) ∧
    (∀ st, Overlay.stateConsistent (Overlay.cleanupAll env st).2) ∧
    (∀ st, st.overlays = [] →
      (Overlay.recoverOrphanedMounts env st).1 = .ok () →
      Overlay.stateConsistent (Overlay.recoverOrphanedMounts env st).2) := by
  refine ⟨?_, ?_, ?_, ?_⟩
  · intro st cid cfg m hok
    rcases hc : Overlay.createOverlay env st cid cfg with ⟨r, st'⟩
    have hok2 : r = .ok m := by rw [hc] at hok; exact hok
    show Overlay.stateConsistent st'
    simp only [Overlay.createOverlay] at hc
    repeat' split at hc
    all_goals injection hc with h1 h2
    all_goals rw [← h1] at hok2
    all_goals first
      | (rw [← h2]; exact Overlay.persistState_consistent env _ hp)
      | exact absurd hok2 (by simp)
  · intro st cid hreg hok
    obtain ⟨m, hm⟩ := Option.isSome_iff_exists.mp hreg
    rcases hc : Overlay.cleanupOverlay env st cid with ⟨r, st'⟩
    have hok2 : r = .ok () := by rw [hc] at hok; exact hok
    show Overlay.stateConsistent st'
    simp only [Overlay.cleanupOverlay, hm] at hc
    split at hc
    · injection hc with h1 h2
      rw [← h1] at hok2
      exact absurd hok2 (by simp)
    · injection hc with h1 h2
      rw [← h2]
      exact Overlay.persistState_consistent env _ hp
  · intro st
    exact ⟨fun _ => rfl, fun h => absurd rfl h⟩
  · intro st hemp hok
    cases hsf : st.stateFile with
    | absent =>
      have hr : Overlay.recoverOrphanedMounts env st = (.ok (), st) := by
        simp [Overlay.recoverOrphanedMounts, hsf]
      rw [hr]
      exact ⟨fun _ => hsf, fun h => absurd hemp h⟩
    | corrupt =>
      cases hro : env.readStateOk with
      | false =>
        have hr : Overlay.recoverOrphanedMounts env st
            = (.error .readFailed, st) := by
          simp [Overlay.recoverOrphanedMounts, hsf, hro]
        rw [hr] at hok
        exact absurd hok (by simp)
      | true =>
        have hr : Overlay.recoverOrphanedMounts env st
            = (.ok (), { st with stateFile := .absent }) := by
          simp [Overlay.recoverOrphanedMounts, hsf, hro]
        rw [hr]
        exact ⟨fun _ => rfl, fun h => absurd hemp h⟩
    | good entries =>
      cases hro : env.readStateOk with
      | false =>
        have hr : Overlay.recoverOrphanedMounts env st
            = (.error .readFailed, st) := by
          simp [Overlay.recoverOrphanedMounts, hsf, hro]
        rw [hr] at hok
        exact absurd hok (by simp)
      | true =>
        have hr : Overlay.recoverOrphanedMounts env st
            = (.ok (), { st with
                dirs := entries.foldl
                  (fun d e =>
                    match Overlay.cleanupMount env e.2 d with
                    | .ok d' => d'
                    | .error _ => d)
                  st.dirs,
                stateFile := .absent }) := by
          simp [Overlay.recoverOrphanedMounts, hsf, hro]
        rw [hr]
        exact ⟨fun _ => rfl, fun h => absurd hemp h⟩

/-- Claim C8, witness: the amended theorem evaluated on the successful
creation of an overlay for container "abcdefghijkl" over the empty state,
whose resulting state is consistent. -/
theorem claim_C8_witness :
    Overlay.envOvAllOk.persistOk = true ∧
    Overlay.stateConsistent (Overlay.createOverlay Overlay.envOvAllOk
      Overlay.stEmpty ("abcdefghijkl") Overlay.cfgOv).2 :=
  ⟨rfl,
    (claim_C8_amended Overlay.envOvAllOk rfl).1 Overlay.stEmpty
      ("abcdefghijkl") Overlay.cfgOv
      { id := ("abcdefghijkl_7"), containerID := ("abcdefghijkl"),
        lowerDir := ("/snap"),
        upperDir := ("/b/abcdefghijkl_7/upper"),
        workDir := ("/b/abcdefghijkl_7/work"),
        mergedDir := ("/b/abcdefghijkl_7/merged"),
        containerPath := ("/data"), createdAt := 7 } (by decide)⟩

/-- Claim C9, counterexample.  A RecoverOrphanedMounts call that returns
without error, over a non-empty registry and a state file recording an
orphan whose unmount escalation fails, leaves the in-memory registry
non-empty and the orphan's directory tree in place while still removing
state.json — contradicting the claim that afterwards the registry is empty
and every recorded tree has been removed. -/
theorem claim_C9_counterexample :
    (Overlay.recoverOrphanedMounts Overlay.envOvUnmountFails
        Overlay.stOrphanD).1 = .ok ()
    ∧ (Overlay.recoverOrphanedMounts Overlay.envOvUnmountFails
        Overlay.stOrphanD).2.overlays ≠ []
    ∧ ("o2") ∈ (Overlay.recoverOrphanedMounts Overlay.envOvUnmountFails
        Overlay.stOrphanD).2.dirs
    ∧ (Overlay.recoverOrphanedMounts Overlay.envOvUnmountFails
        Overlay.stOrphanD).2.stateFile = .absent := by
  refine ⟨by decide, by decide, by decide, by decide⟩

/-- Claim C9, amended: a RecoverOrphanedMounts run that returns without
error removes state.json and leaves the in-memory registry unchanged (so
it is empty exactly when it was empty at the call, as at process start); a
missing state file is a no-op; a malformed state file is removed without
an error; and every mount recorded in the prior state file whose cleanup
succeeds has its directory tree removed (individual cleanup failures are
logged and skipped). -/
theorem claim_C9_amended :
    ∀ (env : Overlay.OvEnv) (st : Overlay.OvState),
      ((Overlay.recoverOrphanedMounts env st).1 = .ok () →
        (Overlay.recoverOrphanedMounts env st).2.stateFile = .absent ∧
        (Overlay.recoverOrphanedMounts env st).2.overlays = st.overlays) ∧
      (st.stateFile = .absent →
        Overlay.recoverOrphanedMounts env st = (.ok (), st)) ∧
      (st.stateFile = .corrupt → env.readStateOk = true →
        Overlay.recoverOrphanedMounts env st
          = (.ok (), { st with stateFile := .absent })) ∧
      (∀ entries, st.stateFile = .good entries → env.readStateOk = true →
        ∀ c m, (c, m) ∈ entries → Overlay.canCleanup env m = true →
          m.id ∉ (Overlay.recoverOrphanedMounts env st).2.dirs) := by
  intro env st
  refine ⟨?_, ?_, ?_, ?_⟩
  · intro hok
    cases hsf : st.stateFile with
    | absent =>
      have hr : Overlay.recoverOrphanedMounts env st = (.ok (), st) := by
        simp [Overlay.recoverOrphanedMounts, hsf]
      rw [hr]
      exact ⟨hsf, rfl⟩
    | corrupt =>
      cases hro : env.readStateOk with
      | false =>
        have hr : Overlay.recoverOrphanedMounts env st
            = (.error .readFailed, st) := by
          simp [Overlay.recoverOrphanedMounts, hsf, hro]
        rw [hr] at hok
        exact absurd hok (by simp)
      | true =>
        have hr : Overlay.recoverOrphanedMounts env st
            = (.ok (), { st with stateFile := .absent }) := by
          simp [Overlay.recoverOrphanedMounts, hsf, hro]
        rw [hr]
        exact ⟨rfl, rfl⟩
    | good entries =>
      cases hro : env.readStateOk with
      | false =>
        have hr : Overlay.recoverOrphanedMounts env st
            = (.error .readFailed, st) := by
          simp [Overlay.recoverOrphanedMounts, hsf, hro]
        rw [hr] at hok
        exact absurd hok (by simp)
      | true =>
        have hr : Overlay.recoverOrphanedMounts env st
            = (.ok (), { st with
                dirs := entries.foldl
                  (fun d e =>
                    match Overlay.cleanupMount env e.2 d with
                    | .ok d' => d'
                    | .error _ => d)
                  st.dirs,
                stateFile := .absent }) := by
          simp [Overlay.recoverOrphanedMounts, hsf, hro]
        rw [hr]
        exact ⟨rfl, rfl⟩
  · intro hsf
    simp [Overlay.recoverOrphanedMounts, hsf]
  · intro hsf hro
    simp [Overlay.recoverOrphanedMounts, hsf, hro]
  · intro entries hsf hro c m hmem hcc
    have hr : Overlay.recoverOrphanedMounts env st
        = (.ok (), { st with
            dirs := entries.foldl
              (fun d e =>
                match Overlay.cleanupMount env e.2 d with
                | .ok d' => d'
                | .error _ => d)
              st.dirs,
            stateFile := .absent }) := by
      simp [Overlay.recoverOrphanedMounts, hsf, hro]
    rw [hr]
    exact Overlay.recoverFold_removes env entries st.dirs c m hmem hcc

/-- Claim C9, witness: the amended theorem evaluated on a state file
recording container "c" whose cleanup succeeds: its tree is removed. -/
theorem claim_C9_witness :
    Overlay.stWithC.stateFile = .good [(("c"), Overlay.mountC)] ∧
    Overlay.canCleanup Overlay.envOvAllOk Overlay.mountC = true ∧
    Overlay.mountC.id ∉ (Overlay.recoverOrphanedMounts Overlay.envOvAllOk
      Overlay.stWithC).2.dirs := by
  refine ⟨rfl, by decide, ?_⟩
  exact (claim_C9_amended Overlay.envOvAllOk Overlay.stWithC).2.2.2
    [(("c"), Overlay.mountC)] rfl rfl ("c") Overlay.mountC
    (by decide) (by decide)

/-- Claim C10: CreateOverlay requires a container id of at least 12 bytes:
for every shorter id the slice containerID[:12] panics even when all
documented preconditions (unregistered id, snapshot path an existing
directory) hold, instead of an error being returned. -/
theorem claim_C10_short_id_panics :
    ∀ (env : Overlay.OvEnv) (st : Overlay.OvState) (cid : String)
      (cfg : Overlay.OvConfig),
      cid.length < 12 →
      Overlay.regFind st.overlays cid = none →
      env.snapStat cfg.snapshotPath = .dir →
      Overlay.createOverlay env st cid cfg = (.panicked, st) := by
  intro env st cid cfg hlen hreg hstat
  simp [Overlay.createOverlay, hreg, hstat, hlen]

/-- Claim C10, witness: the three-byte container id "abc" panics with every
precondition satisfied. -/
theorem claim_C10_witness :
    ("abc").length < 12 ∧
    Overlay.regFind Overlay.stEmpty.overlays ("abc") = none ∧
    Overlay.envOvAllOk.snapStat Overlay.cfgOv.snapshotPath = .dir ∧
    Overlay.createOverlay Overlay.envOvAllOk Overlay.stEmpty ("abc")
      Overlay.cfgOv = (.panicked, Overlay.stEmpty) :=
  ⟨by decide, rfl, rfl,
    claim_C10_short_id_panics Overlay.envOvAllOk Overlay.stEmpty ("abc")
      Overlay.cfgOv (by decide) rfl rfl⟩

end Hive
